import Mathlib

/-!
Verification development for the `dashboard_contag` repository (`src/app.py`).

The file shallowly embeds the data-transformation core of the dashboard:
the indicator classifier (`classify_indicator_value`), the filter engine
(`build_filter_conditions`), the period normalizer (`append_period_columns`),
the annual replication synthesizer (`prepare_series_data`) and the ranking
engine (`show_ranking_table`).  Python floats are modelled as exact rationals
(`ℚ`); a value that is `None` or NaN is modelled as `none : Option ℚ`.
Dataframes are modelled as lists of records; the column set of a dataframe, where
it matters (the ranking view raises `KeyError` on a missing column), is
modelled as an explicit list of column names.
-/

set_option maxHeartbeats 1600000

namespace DashboardContag

/-!
## Indicator Classifier

Embedding of `classify_indicator_value` (src/app.py, lines 426-485).
Each threshold constant is the exact rational of the decimal literal in the
source.  `none` stands for an absent value or NaN (`value is None or
pd.isna(value)`).
-/

def classify_indicator_value (column : String) (value : Option ℚ) : String :=
  match value with
  | none => "Sem dado"
  | some value =>
    if column = "sinistralidade" then
      if value ≤ 0.75 then "Excelente"
      else if value ≤ 0.85 then "Adequado"
      else "Crítico"
    else if column = "pct_despesas_administrativas" then
      if value ≤ 0.10 then "Enxuto"
      else if value ≤ 0.15 then "Controle"
      else "Pressão"
    else if column = "pct_despesas_comerciais" then
      if value ≤ 0.07 then "Competitivo"
      else if value ≤ 0.12 then "Atenção"
      else "Elevado"
    else if column = "pct_despesas_operacionais" then
      if value ≤ 0.90 then "Controlado"
      else if value ≤ 1.00 then "Limite"
      else "Desfavorável"
    else if column = "indice_resultado_financeiro" then
      if value ≥ 0.02 then "Positivo"
      else if value ≥ 0 then "Neutro"
      else "Negativo"
    else if column = "liquidez_corrente" then
      if value ≥ 1.2 then "Sólida"
      else if value ≥ 1.0 then "Confortável"
      else if value ≥ 0.8 then "Alerta"
      else "Risco"
    else if column = "ct_cp" then
      if value ≤ 1.5 then "Baixo"
      else if value ≤ 3.0 then "Moderado"
      else "Alavancado"
    else if column = "margem_financeira_liquida" ∨ column = "margem_operacional"
        ∨ column = "margem_lucro_liquida" then
      if value ≥ 0.05 then "Saudável"
      else if value ≥ 0 then "Equilíbrio"
      else "Prejuízo"
    else if column = "pm_contraprestacoes" ∨ column = "pm_eventos" then
      if value ≤ 60 then "Curto"
      else if value ≤ 90 then "Médio"
      else "Longo"
    else ""

/-- The field keys that have a threshold ladder in `classify_indicator_value`
(they coincide with the columns of the `INDICATORS` catalog, src/app.py
lines 49-62). -/
def classified_columns : List String :=
  ["sinistralidade", "pct_despesas_administrativas", "pct_despesas_comerciais",
   "pct_despesas_operacionais", "indice_resultado_financeiro", "liquidez_corrente",
   "ct_cp", "margem_financeira_liquida", "margem_operacional", "margem_lucro_liquida",
   "pm_contraprestacoes", "pm_eventos"]

/-- Evaluation of the string dispatch of `classify_indicator_value` at the
leverage column `ct_cp`. -/
lemma classify_ct_cp (v : ℚ) :
    classify_indicator_value "ct_cp" (some v)
      = if v ≤ 1.5 then "Baixo" else if v ≤ 3.0 then "Moderado" else "Alavancado" := rfl

/-- Evaluation of the string dispatch of `classify_indicator_value` at the
loss-ratio column `sinistralidade`. -/
lemma classify_sinistralidade (v : ℚ) :
    classify_indicator_value "sinistralidade" (some v)
      = if v ≤ 0.75 then "Excelente" else if v ≤ 0.85 then "Adequado" else "Crítico" := rfl

/-- C1 counterexample: the ladder claimed for the leverage indicator `ct_cp`
(`≤ 1.0` Low, `≤ 2.0` Moderate, else High) disagrees with the code, which uses
`≤ 1.5` / `≤ 3.0`.  At value `1.2` the claim predicts the Moderate bucket
(`"Moderado"`), the code returns the Low bucket (`"Baixo"`); at `2.5` the claim
predicts the High bucket (`"Alavancado"`), the code returns `"Moderado"`. -/
theorem C1_ct_cp_claim_counterexample :
    classify_indicator_value "ct_cp" (some 1.2) = "Baixo"
      ∧ classify_indicator_value "ct_cp" (some 1.2) ≠ "Moderado"
      ∧ classify_indicator_value "ct_cp" (some 2.5) = "Moderado"
      ∧ classify_indicator_value "ct_cp" (some 2.5) ≠ "Alavancado" := by
  have h12 : classify_indicator_value "ct_cp" (some 1.2) = "Baixo" := by
    rw [classify_ct_cp]; norm_num
  have h25 : classify_indicator_value "ct_cp" (some 2.5) = "Moderado" := by
    rw [classify_ct_cp]; norm_num
  refine ⟨h12, ?_, h25, ?_⟩ <;> simp [h12, h25]

/-- C1 (amended): for every non-missing value `v` of the leverage indicator
`ct_cp`, classification returns the Low bucket `"Baixo"` when `v ≤ 1.5`, the
Moderate bucket `"Moderado"` when `1.5 < v ≤ 3.0`, and the High bucket
`"Alavancado"` otherwise. -/
theorem C1_ct_cp_amended (v : ℚ) :
    (v ≤ 1.5 → classify_indicator_value "ct_cp" (some v) = "Baixo")
      ∧ (1.5 < v → v ≤ 3.0 → classify_indicator_value "ct_cp" (some v) = "Moderado")
      ∧ (3.0 < v → classify_indicator_value "ct_cp" (some v) = "Alavancado") := by
  rw [classify_ct_cp]
  refine ⟨fun h1 => if_pos h1, fun h1 h2 => ?_, fun h1 => ?_⟩
  · rw [if_neg (not_le.mpr h1), if_pos h2]
  · rw [if_neg (by linarith), if_neg (not_le.mpr h1)]

/-- C1 amended witness at concrete inputs on each side of the two thresholds. -/
theorem C1_ct_cp_amended_witness :
    ((1 : ℚ) ≤ 1.5 ∧ classify_indicator_value "ct_cp" (some 1) = "Baixo")
      ∧ ((1.5 : ℚ) < 2 ∧ (2 : ℚ) ≤ 3.0 ∧ classify_indicator_value "ct_cp" (some 2) = "Moderado")
      ∧ ((3.0 : ℚ) < 4 ∧ classify_indicator_value "ct_cp" (some 4) = "Alavancado") :=
  ⟨⟨by norm_num, (C1_ct_cp_amended 1).1 (by norm_num)⟩,
   ⟨by norm_num, by norm_num, (C1_ct_cp_amended 2).2.1 (by norm_num) (by norm_num)⟩,
   ⟨by norm_num, (C1_ct_cp_amended 4).2.2 (by norm_num)⟩⟩

/-- C5: for every field key, an absent/NaN value classifies as `"Sem dado"`;
for the loss-ratio field `sinistralidade`, the value `0.75` classifies as
`"Excelente"` (boundary inclusive) and every value in `(0.75, 0.85]`
classifies as `"Adequado"`. -/
theorem C5_classification_boundaries :
    (∀ column : String, classify_indicator_value column none = "Sem dado")
      ∧ classify_indicator_value "sinistralidade" (some 0.75) = "Excelente"
      ∧ (∀ v : ℚ, 0.75 < v → v ≤ 0.85 →
          classify_indicator_value "sinistralidade" (some v) = "Adequado") := by
  refine ⟨fun column => rfl, ?_, fun v h1 h2 => ?_⟩
  · rw [classify_sinistralidade]; norm_num
  · rw [classify_sinistralidade, if_neg (not_le.mpr h1), if_pos h2]

/-- C5 witness: the boundary value `0.75` and the interior point `0.8`. -/
theorem C5_classification_boundaries_witness :
    classify_indicator_value "margem_operacional" none = "Sem dado"
      ∧ classify_indicator_value "sinistralidade" (some 0.75) = "Excelente"
      ∧ ((0.75 : ℚ) < 0.8 ∧ (0.8 : ℚ) ≤ 0.85
          ∧ classify_indicator_value "sinistralidade" (some 0.8) = "Adequado") :=
  ⟨C5_classification_boundaries.1 "margem_operacional",
   C5_classification_boundaries.2.1,
   by norm_num, by norm_num,
   C5_classification_boundaries.2.2 0.8 (by norm_num) (by norm_num)⟩

/-- C9: every field key outside the indicator threshold catalog classifies a
non-missing value to the empty label `""`; the classifier is a total Lean
function, so it can never raise. -/
theorem C9_unknown_indicator_blank (column : String) (v : ℚ)
    (h : column ∉ classified_columns) :
    classify_indicator_value column (some v) = "" := by
  simp only [classified_columns, List.mem_cons, List.not_mem_nil, or_false, not_or] at h
  obtain ⟨h1, h2, h3, h4, h5, h6, h7, h8, h9, h10, h11, h12⟩ := h
  simp [classify_indicator_value, h1, h2, h3, h4, h5, h6, h7, h8, h9, h10, h11, h12]

/-- C9 witness: the unmapped key `"total_beneficiarios"` classifies to `""`. -/
theorem C9_unknown_indicator_blank_witness :
    "total_beneficiarios" ∉ classified_columns
      ∧ classify_indicator_value "total_beneficiarios" (some 1) = "" :=
  ⟨by decide, C9_unknown_indicator_blank "total_beneficiarios" 1 (by decide)⟩

/-!
## Filter Engine

Embedding of `build_filter_conditions` (src/app.py, lines 206-236).  The
source assembles a SQL `WHERE` clause; we model its semantics, per record, as
the list of membership conditions it generates.  A dict key that is absent and
a key bound to an empty list are both falsy in Python, so both are modelled by
the empty list.  `somente_uniodonto` is the `restrict_to_flagged` toggle and
`uniodonto_reg_ans` the externally supplied allow-list (`filters.get(...) or
[]`).
-/

/-- The filter specification assembled by `render_filters` (src/app.py,
lines 554-562); each multiselect key is a list, absent ≡ empty. -/
structure FilterSpec where
  anos : List Int
  trimestres : List Int
  modalidades : List String
  portes : List String
  operadoras : List String
  somente_uniodonto : Bool
  uniodonto_reg_ans : List String
deriving DecidableEq

/-- The per-record fields the generated `WHERE` clauses test. -/
structure FRec where
  reg_ans : String
  ano : Int
  trimestre : Int
  modalidade : String
  porte : String
deriving DecidableEq

/-- The list of conditions generated by `build_filter_conditions`: one
membership clause per truthy key (`"1 = 1"` is the constantly-true head), the
year/quarter clauses suppressed when `ignore_period_filters` is set, and the
allow-list clause added only when the toggle is on and the allow-list is
non-empty. -/
def build_filter_conditions (filters : FilterSpec) (ignore_period_filters : Bool) :
    List (FRec → Bool) :=
  [fun _ => true]
    ++ (if ignore_period_filters = false ∧ filters.anos ≠ [] then
          [fun r : FRec => decide (r.ano ∈ filters.anos)] else [])
    ++ (if ignore_period_filters = false ∧ filters.trimestres ≠ [] then
          [fun r : FRec => decide (r.trimestre ∈ filters.trimestres)] else [])
    ++ (if filters.modalidades ≠ [] then
          [fun r : FRec => decide (r.modalidade ∈ filters.modalidades)] else [])
    ++ (if filters.portes ≠ [] then
          [fun r : FRec => decide (r.porte ∈ filters.portes)] else [])
    ++ (if filters.operadoras ≠ [] then
          [fun r : FRec => decide (r.reg_ans ∈ filters.operadoras)] else [])
    ++ (if filters.somente_uniodonto = true ∧ filters.uniodonto_reg_ans ≠ [] then
          [fun r : FRec => decide (r.reg_ans ∈ filters.uniodonto_reg_ans)] else [])

/-- Semantics of the `WHERE` clause built from the conditions: a record is
kept iff every generated clause holds (the clauses are `AND`-joined). -/
def apply_filters (filters : FilterSpec) (ignore_period_filters : Bool)
    (records : List FRec) : List FRec :=
  records.filter fun r =>
    (build_filter_conditions filters ignore_period_filters).all fun c => c r

/-- `List.all` over the singleton-or-empty chunks produced by the clause
builder. -/
lemma all_ite_singleton {α : Type} {c : Prop} [Decidable c] (p : α → Bool)
    (f : (α → Bool) → Bool) :
    (if c then [p] else []).all f = if c then f p else true := by
  split <;> simp

/-- A guard that defaults to `true` holds iff it holds under its condition. -/
lemma ite_true_iff {c : Prop} [Decidable c] (b : Bool) :
    ((if c then b else true) = true) ↔ (c → b = true) := by
  split <;> simp_all

/-- Unfolding lemma: a record passes the generated clauses iff it satisfies
the membership test of every active key. -/
lemma all_conditions_iff (filters : FilterSpec) (ig : Bool) (r : FRec) :
    ((build_filter_conditions filters ig).all fun c => c r) = true ↔
      ((ig = false ∧ filters.anos ≠ [] → r.ano ∈ filters.anos)
        ∧ (ig = false ∧ filters.trimestres ≠ [] → r.trimestre ∈ filters.trimestres)
        ∧ (filters.modalidades ≠ [] → r.modalidade ∈ filters.modalidades)
        ∧ (filters.portes ≠ [] → r.porte ∈ filters.portes)
        ∧ (filters.operadoras ≠ [] → r.reg_ans ∈ filters.operadoras)
        ∧ (filters.somente_uniodonto = true ∧ filters.uniodonto_reg_ans ≠ [] →
            r.reg_ans ∈ filters.uniodonto_reg_ans)) := by
  simp only [build_filter_conditions, List.all_append, List.all_cons, List.all_nil,
    all_ite_singleton, Bool.and_eq_true, ite_true_iff, decide_eq_true_eq,
    Bool.and_true, Bool.true_and, true_and, and_assoc]

/-- Membership in the filtered output, spelled out per dimension. -/
lemma mem_apply_filters (filters : FilterSpec) (ig : Bool) (records : List FRec)
    (r : FRec) :
    r ∈ apply_filters filters ig records ↔
      r ∈ records
        ∧ (ig = false ∧ filters.anos ≠ [] → r.ano ∈ filters.anos)
        ∧ (ig = false ∧ filters.trimestres ≠ [] → r.trimestre ∈ filters.trimestres)
        ∧ (filters.modalidades ≠ [] → r.modalidade ∈ filters.modalidades)
        ∧ (filters.portes ≠ [] → r.porte ∈ filters.portes)
        ∧ (filters.operadoras ≠ [] → r.reg_ans ∈ filters.operadoras)
        ∧ (filters.somente_uniodonto = true ∧ filters.uniodonto_reg_ans ≠ [] →
            r.reg_ans ∈ filters.uniodonto_reg_ans) := by
  rw [apply_filters, List.mem_filter, all_conditions_iff]

/-- C3 counterexample: with `restrict_to_flagged` (`somente_uniodonto`) set and
an empty allow-list, the engine adds no clause, so a record whose `reg_ans` is
not in the (empty) allow-list is still kept. -/
theorem C3_flagged_empty_allowlist_counterexample :
    FRec.mk "999999" 2024 1 "ODONTO" "Pequeno"
        ∈ apply_filters (FilterSpec.mk [] [] [] [] [] true []) false
            [FRec.mk "999999" 2024 1 "ODONTO" "Pequeno"]
      ∧ "999999" ∉ ([] : List String) := by
  constructor
  · rw [mem_apply_filters]
    refine ⟨by decide, ?_, ?_, ?_, ?_, ?_, ?_⟩ <;> simp
  · decide

/-- C3 (amended): when `restrict_to_flagged` is set and the supplied allow-list
is non-empty, every record kept by the filter engine has its `reg_ans` in the
allow-list; an empty allow-list imposes no constraint. -/
theorem C3_flagged_restriction_amended (filters : FilterSpec) (ig : Bool)
    (records : List FRec) (r : FRec)
    (htoggle : filters.somente_uniodonto = true)
    (hne : filters.uniodonto_reg_ans ≠ [])
    (hmem : r ∈ apply_filters filters ig records) :
    r.reg_ans ∈ filters.uniodonto_reg_ans := by
  rw [mem_apply_filters] at hmem
  exact hmem.2.2.2.2.2.2 ⟨htoggle, hne⟩

/-- C3 amended witness: a concrete spec with a non-empty allow-list. -/
theorem C3_flagged_restriction_amended_witness :
    (FilterSpec.mk [] [] [] [] [] true ["111111"]).somente_uniodonto = true
      ∧ (FilterSpec.mk [] [] [] [] [] true ["111111"]).uniodonto_reg_ans ≠ []
      ∧ FRec.mk "111111" 2024 1 "ODONTO" "Pequeno"
          ∈ apply_filters (FilterSpec.mk [] [] [] [] [] true ["111111"]) false
              [FRec.mk "111111" 2024 1 "ODONTO" "Pequeno"]
      ∧ ("111111" : String)
          ∈ (FilterSpec.mk [] [] [] [] [] true ["111111"]).uniodonto_reg_ans :=
  ⟨rfl, by decide, by decide,
   C3_flagged_restriction_amended (FilterSpec.mk [] [] [] [] [] true ["111111"]) false
     [FRec.mk "111111" 2024 1 "ODONTO" "Pequeno"]
     (FRec.mk "111111" 2024 1 "ODONTO" "Pequeno") rfl (by decide) (by decide)⟩

/-- C8: (1) a specification with no active keys returns the full record set;
(2) `ignore_period_filters` suppresses the year/quarter constraints regardless
of their content while the other constraints still apply; (3) a record is kept
iff it satisfies the membership test of every active dimension — a key that is
absent or bound to the empty list contributes no constraint. -/
theorem C8_filter_spec_semantics (filters : FilterSpec) (ig : Bool)
    (records : List FRec) (r : FRec) :
    (filters.anos = [] → filters.trimestres = [] → filters.modalidades = [] →
      filters.portes = [] → filters.operadoras = [] → filters.uniodonto_reg_ans = [] →
      apply_filters filters ig records = records)
      ∧ apply_filters filters true records
          = apply_filters { filters with anos := [], trimestres := [] } false records
      ∧ (r ∈ apply_filters filters false records ↔
          r ∈ records
            ∧ (filters.anos = [] ∨ r.ano ∈ filters.anos)
            ∧ (filters.trimestres = [] ∨ r.trimestre ∈ filters.trimestres)
            ∧ (filters.modalidades = [] ∨ r.modalidade ∈ filters.modalidades)
            ∧ (filters.portes = [] ∨ r.porte ∈ filters.portes)
            ∧ (filters.operadoras = [] ∨ r.reg_ans ∈ filters.operadoras)
            ∧ (filters.somente_uniodonto = false ∨ filters.uniodonto_reg_ans = []
                ∨ r.reg_ans ∈ filters.uniodonto_reg_ans)) := by
  refine ⟨fun h1 h2 h3 h4 h5 h6 => ?_, ?_, ?_⟩
  · rw [apply_filters, List.filter_eq_self]
    intro a _
    rw [all_conditions_iff]
    exact ⟨fun hc => absurd h1 hc.2, fun hc => absurd h2 hc.2, fun hc => absurd h3 hc,
      fun hc => absurd h4 hc, fun hc => absurd h5 hc, fun hc => absurd h6 hc.2⟩
  · rw [apply_filters, apply_filters]
    apply List.filter_congr
    intro a _
    rw [Bool.eq_iff_iff, all_conditions_iff, all_conditions_iff]
    constructor
    · intro ⟨_, _, h3, h4, h5, h6⟩
      exact ⟨fun hc => absurd rfl hc.2, fun hc => absurd rfl hc.2, h3, h4, h5, h6⟩
    · intro ⟨_, _, h3, h4, h5, h6⟩
      exact ⟨fun hc => absurd hc.1 (by simp), fun hc => absurd hc.1 (by simp), h3, h4, h5, h6⟩
  · rw [mem_apply_filters]
    constructor
    · intro ⟨hm, h1, h2, h3, h4, h5, h6⟩
      refine ⟨hm, ?_, ?_, ?_, ?_, ?_, ?_⟩
      · rcases eq_or_ne filters.anos [] with h | h
        · exact Or.inl h
        · exact Or.inr (h1 ⟨rfl, h⟩)
      · rcases eq_or_ne filters.trimestres [] with h | h
        · exact Or.inl h
        · exact Or.inr (h2 ⟨rfl, h⟩)
      · rcases eq_or_ne filters.modalidades [] with h | h
        · exact Or.inl h
        · exact Or.inr (h3 h)
      · rcases eq_or_ne filters.portes [] with h | h
        · exact Or.inl h
        · exact Or.inr (h4 h)
      · rcases eq_or_ne filters.operadoras [] with h | h
        · exact Or.inl h
        · exact Or.inr (h5 h)
      · rcases Bool.eq_false_or_eq_true filters.somente_uniodonto with h | h
        · rcases eq_or_ne filters.uniodonto_reg_ans [] with h' | h'
          · exact Or.inr (Or.inl h')
          · exact Or.inr (Or.inr (h6 ⟨h, h'⟩))
        · exact Or.inl h
    · intro ⟨hm, h1, h2, h3, h4, h5, h6⟩
      refine ⟨hm, fun hc => h1.resolve_left hc.2, fun hc => h2.resolve_left hc.2,
        fun hc => h3.resolve_left hc, fun hc => h4.resolve_left hc,
        fun hc => h5.resolve_left hc, fun hc => ?_⟩
      rcases h6 with h | h | h
      · rw [hc.1] at h; cases h
      · exact absurd h hc.2
      · exact h

/-- C8 witness: the empty specification keeps everything; with
`ignore_period_filters` a period-constrained spec keeps an out-of-period
record; the membership characterization at a concrete spec and record. -/
theorem C8_filter_spec_semantics_witness :
    apply_filters (FilterSpec.mk [] [] [] [] [] false []) false
        [FRec.mk "1" 2020 1 "M" "P"] = [FRec.mk "1" 2020 1 "M" "P"]
      ∧ apply_filters (FilterSpec.mk [2024] [4] [] [] [] false []) true
          [FRec.mk "1" 2020 1 "M" "P"]
        = apply_filters (FilterSpec.mk [] [] [] [] [] false []) false
            [FRec.mk "1" 2020 1 "M" "P"]
      ∧ (FRec.mk "1" 2020 1 "M" "P"
            ∈ apply_filters (FilterSpec.mk [2020] [] [] [] [] false []) false
                [FRec.mk "1" 2020 1 "M" "P"] ↔
          FRec.mk "1" 2020 1 "M" "P" ∈ [FRec.mk "1" 2020 1 "M" "P"]
            ∧ (([2020] : List Int) = [] ∨ (2020 : Int) ∈ ([2020] : List Int))
            ∧ (([] : List Int) = [] ∨ (1 : Int) ∈ ([] : List Int))
            ∧ (([] : List String) = [] ∨ "M" ∈ ([] : List String))
            ∧ (([] : List String) = [] ∨ "P" ∈ ([] : List String))
            ∧ (([] : List String) = [] ∨ "1" ∈ ([] : List String))
            ∧ (false = false ∨ ([] : List String) = [] ∨ "1" ∈ ([] : List String))) :=
  ⟨(C8_filter_spec_semantics (FilterSpec.mk [] [] [] [] [] false []) false
      [FRec.mk "1" 2020 1 "M" "P"] (FRec.mk "1" 2020 1 "M" "P")).1
      rfl rfl rfl rfl rfl rfl,
   (C8_filter_spec_semantics (FilterSpec.mk [2024] [4] [] [] [] false []) true
      [FRec.mk "1" 2020 1 "M" "P"] (FRec.mk "1" 2020 1 "M" "P")).2.1,
   (C8_filter_spec_semantics (FilterSpec.mk [2020] [] [] [] [] false []) false
      [FRec.mk "1" 2020 1 "M" "P"] (FRec.mk "1" 2020 1 "M" "P")).2.2⟩

/-!
## Period Normalizer and Annual Replication Synthesizer

Embedding of `append_period_columns` (src/app.py, lines 565-585) and
`prepare_series_data` (src/app.py, lines 588-616).  A working row `WRow δ`
carries the fields the synthesizer reads or writes explicitly; `δ` stands for
all remaining dataframe columns, which the clone loop copies verbatim
(`template.to_dict()`).  The `_replicado` and `periodicidade_registro`
columns are unconditionally assigned by the synthesizer, so modelling them as
always-present fields is faithful both to a first application (columns
created) and to a re-application (columns overwritten).
-/

/-- A row of the series dataframe.  `replicado` is the `_replicado` column and
`periodicidade` the `periodicidade_registro` column. -/
structure WRow (δ : Type) where
  reg_ans : String
  ano : Int
  trimestre : Int
  nome_fantasia : Option String
  razao_social : Option String
  data : δ
  replicado : Bool
  periodicidade : String
deriving DecidableEq

/-- The `(reg_ans, ano)` group membership test used by
`groupby(["reg_ans", "ano"])`. -/
def in_group {δ : Type} (reg : String) (yr : Int) (r : WRow δ) : Bool :=
  decide (r.reg_ans = reg ∧ r.ano = yr)

/-- The rows of one `(reg_ans, ano)` group, in dataframe order. -/
def group_rows {δ : Type} (rows : List (WRow δ)) (reg : String) (yr : Int) :
    List (WRow δ) :=
  rows.filter (in_group reg yr)

/-- `groupby(["reg_ans", "ano"])["trimestre"].transform("nunique")`: the
number of distinct quarters observed in a group. -/
def n_quarters {δ : Type} (rows : List (WRow δ)) (reg : String) (yr : Int) : ℕ :=
  ((group_rows rows reg yr).map fun r => r.trimestre).dedup.length

/-- The per-row effect of lines 592-596: `_replicado` is (re)set to `False`
and the cadence label is `"Anual"` for groups with at most one distinct
quarter (`annual_mask`), `"Trimestral"` otherwise. -/
def tag_row {δ : Type} (rows : List (WRow δ)) (r : WRow δ) : WRow δ :=
  { r with replicado := false,
           periodicidade :=
             if n_quarters rows r.reg_ans r.ano ≤ 1 then "Anual" else "Trimestral" }

/-- The keys of the annual groups (`annual_df.groupby(["reg_ans", "ano"])`),
each key once.  The source iterates the keys in sorted order, we keep
first-occurrence order; per-group observables do not depend on this order. -/
def annual_group_keys {δ : Type} (rows : List (WRow δ)) : List (String × Int) :=
  ((rows.filter fun r => decide (n_quarters rows r.reg_ans r.ano ≤ 1)).map
    fun r => (r.reg_ans, r.ano)).dedup

/-- `[q for q in (1, 2, 3, 4) if q not in existing_quarters]`. -/
def missing_quarters {δ : Type} (group : List (WRow δ)) : List Int :=
  [1, 2, 3, 4].filter fun q => !((group.map fun r => r.trimestre).contains q)

/-- The clone rows fabricated for one annual group: each missing quarter gets
a copy of the first row of the group (`template = group.iloc[0]`) with only the
quarter and the `_replicado` flag changed.  For a key of an annual group the
whole group is annual, so filtering the full tagged frame by the key equals
filtering `annual_df` by it. -/
def group_clones {δ : Type} (tagged : List (WRow δ)) (reg : String) (yr : Int) :
    List (WRow δ) :=
  match group_rows tagged reg yr with
  | [] => []
  | template :: rest =>
    (missing_quarters (template :: rest)).map fun q =>
      { template with trimestre := q, replicado := true }

/-- Lines 591-614 of `prepare_series_data`: flag and tag every row, then
append the clones of every annual group (`pd.concat([base_df,
pd.DataFrame(clones)])`). -/
def prepare_series_rows {δ : Type} (rows : List (WRow δ)) : List (WRow δ) :=
  (rows.map (tag_row rows))
    ++ ((annual_group_keys rows).map fun k =>
          group_clones (rows.map (tag_row rows)) k.1 k.2).flatten

/-- The operator display label built by `append_period_columns`
(lines 573-582): trade name if non-blank, else legal name if non-blank, else
the registration id, prefixed by the registration id. -/
def build_label {δ : Type} (r : WRow δ) : String :=
  let nome :=
    match r.nome_fantasia with
    | some fantasia =>
      if fantasia.trim ≠ "" then fantasia.trim
      else
        match r.razao_social with
        | some razao => if razao.trim ≠ "" then razao.trim else r.reg_ans
        | none => r.reg_ans
    | none =>
      match r.razao_social with
      | some razao => if razao.trim ≠ "" then razao.trim else r.reg_ans
      | none => r.reg_ans
  r.reg_ans ++ " • " ++ nome

/-- A row extended with the columns added by `append_period_columns`:
the sortable period key (the `(ano, trimestre)` pair is order-isomorphic to
the end-of-quarter timestamp), the `"{ano}Q{trimestre}"` label, and the
operator label. -/
structure PRow (δ : Type) extends WRow δ where
  periodo : Int × Int
  periodo_label : String
  operadora_label : String
deriving DecidableEq

/-- `append_period_columns` (src/app.py, lines 565-585): adds the period key,
the period label and the operator label to every row; order-preserving. -/
def append_period_columns {δ : Type} (rows : List (WRow δ)) : List (PRow δ) :=
  rows.map fun r =>
    ⟨r, (r.ano, r.trimestre), toString r.ano ++ "Q" ++ toString r.trimestre,
      build_label r⟩

/-- `prepare_series_data` (src/app.py, lines 588-616): synthesize the annual
group clones, then re-run the period normalizer over the combined frame. -/
def prepare_series_data {δ : Type} (rows : List (WRow δ)) : List (PRow δ) :=
  append_period_columns (prepare_series_rows rows)

/-- The normalizer only adds derived columns: projecting it away recovers the
synthesized rows, so row-level claims can be settled on
`prepare_series_rows`. -/
lemma prepare_series_data_toWRow {δ : Type} (rows : List (WRow δ)) :
    (prepare_series_data rows).map PRow.toWRow = prepare_series_rows rows := by
  rw [prepare_series_data, append_period_columns, List.map_map]
  exact List.map_id _

section SynthesizerLemmas

variable {δ : Type}

/-- Tagging changes neither the entity nor the year of a row. -/
lemma in_group_tag_row (rows : List (WRow δ)) (reg : String) (yr : Int) (r : WRow δ) :
    in_group reg yr (tag_row rows r) = in_group reg yr r := by
  simp [in_group, tag_row]

/-- Group extraction distributes over concatenation. -/
lemma group_rows_append (l₁ l₂ : List (WRow δ)) (reg : String) (yr : Int) :
    group_rows (l₁ ++ l₂) reg yr = group_rows l₁ reg yr ++ group_rows l₂ reg yr :=
  List.filter_append _ _

/-- Group extraction commutes with tagging. -/
lemma group_rows_map_tag (rows₀ rows : List (WRow δ)) (reg : String) (yr : Int) :
    group_rows (rows.map (tag_row rows₀)) reg yr
      = (group_rows rows reg yr).map (tag_row rows₀) := by
  rw [group_rows, List.filter_map, group_rows]
  exact congrArg _ (List.filter_congr fun r _ => in_group_tag_row rows₀ reg yr r)

/-- Membership in a group spelled out. -/
lemma mem_group_rows (rows : List (WRow δ)) (reg : String) (yr : Int) (r : WRow δ) :
    r ∈ group_rows rows reg yr ↔ r ∈ rows ∧ r.reg_ans = reg ∧ r.ano = yr := by
  simp [group_rows, in_group, List.mem_filter]

/-- Every clone fabricated for a key carries that key. -/
lemma group_clones_key (tagged : List (WRow δ)) (reg : String) (yr : Int) :
    ∀ x ∈ group_clones tagged reg yr, x.reg_ans = reg ∧ x.ano = yr := by
  intro x hx
  unfold group_clones at hx
  rcases hgr : group_rows tagged reg yr with _ | ⟨template, rest⟩ <;>
    simp only [hgr] at hx
  · cases hx
  · obtain ⟨q, -, rfl⟩ := List.mem_map.mp hx
    have ht : template ∈ group_rows tagged reg yr := by
      rw [hgr]; exact List.mem_cons_self _ _
    have := (mem_group_rows tagged reg yr template).mp ht
    exact ⟨this.2.1, this.2.2⟩

/-- Filtering the clones of a key by the same key keeps them all. -/
lemma group_rows_clones_self (tagged : List (WRow δ)) (reg : String) (yr : Int) :
    group_rows (group_clones tagged reg yr) reg yr = group_clones tagged reg yr := by
  rw [group_rows, List.filter_eq_self]
  intro x hx
  have := group_clones_key tagged reg yr x hx
  simp [in_group, this.1, this.2]

/-- Filtering the clones of a key by a different key discards them all. -/
lemma group_rows_clones_other (tagged : List (WRow δ)) (reg yr reg' yr')
    (hne : (reg', yr') ≠ ((reg, yr) : String × Int)) :
    group_rows (group_clones tagged reg yr) reg' yr' = [] := by
  rw [group_rows, List.filter_eq_nil_iff]
  intro x hx
  have hk := group_clones_key tagged reg yr x hx
  simp only [in_group, decide_eq_true_eq, not_and]
  intro h1 h2
  exact hne (by rw [← h1, ← h2, hk.1, hk.2])

/-- A key is an annual-group key iff its group is non-empty and has at most
one distinct quarter. -/
lemma mem_annual_group_keys (rows : List (WRow δ)) (reg : String) (yr : Int) :
    (reg, yr) ∈ annual_group_keys rows ↔
      n_quarters rows reg yr ≤ 1 ∧ group_rows rows reg yr ≠ [] := by
  rw [annual_group_keys, List.mem_dedup]
  constructor
  · intro h
    obtain ⟨r, hr, hkey⟩ := List.mem_map.mp h
    obtain ⟨hrmem, hrq⟩ := List.mem_filter.mp hr
    obtain ⟨h1, h2⟩ := Prod.mk.injEq .. ▸ hkey
    refine ⟨by rw [← h1, ← h2]; exact decide_eq_true_eq.mp hrq, ?_⟩
    exact List.ne_nil_of_mem ((mem_group_rows rows reg yr r).mpr ⟨hrmem, h1, h2⟩)
  · intro ⟨hq, hne⟩
    obtain ⟨r, hr⟩ := List.exists_mem_of_ne_nil _ hne
    obtain ⟨hrmem, h1, h2⟩ := (mem_group_rows rows reg yr r).mp hr
    refine List.mem_map.mpr ⟨r, List.mem_filter.mpr ⟨hrmem, ?_⟩, by rw [h1, h2]⟩
    rw [h1, h2]
    exact decide_eq_true_eq.mpr hq

/-- Filtering the concatenated clone lists of a duplicate-free key list by one
key yields the clones of that key when present, nothing otherwise. -/
lemma group_rows_flatten_clones (tagged : List (WRow δ)) (ks : List (String × Int))
    (hnd : ks.Nodup) (reg : String) (yr : Int) :
    group_rows ((ks.map fun k => group_clones tagged k.1 k.2).flatten) reg yr
      = if (reg, yr) ∈ ks then group_clones tagged reg yr else [] := by
  induction ks with
  | nil => simp [group_rows]
  | cons k t ih =>
    obtain ⟨hkt, hndt⟩ := List.nodup_cons.mp hnd
    rw [List.map_cons, List.flatten_cons, group_rows_append, ih hndt]
    by_cases hk : ((reg, yr) : String × Int) = k
    · have hself : group_rows (group_clones tagged k.1 k.2) reg yr
          = group_clones tagged reg yr := by
        rw [← hk]
        exact group_rows_clones_self tagged reg yr
      have hnt : ((reg, yr) : String × Int) ∉ t := hk ▸ hkt
      rw [hself, if_neg hnt, if_pos (hk ▸ List.mem_cons_self k t), List.append_nil]
    · have hother : group_rows (group_clones tagged k.1 k.2) reg yr = [] := by
        refine group_rows_clones_other tagged k.1 k.2 reg yr ?_
        intro hEq
        exact hk (hEq.trans (Prod.mk.eta))
      rw [hother, List.nil_append]
      by_cases hmem : ((reg, yr) : String × Int) ∈ t
      · rw [if_pos hmem, if_pos (List.mem_cons_of_mem k hmem)]
      · rw [if_neg hmem, if_neg (by simp [hk, hmem])]

/-- The annual-group key list is duplicate-free. -/
lemma annual_group_keys_nodup (rows : List (WRow δ)) :
    (annual_group_keys rows).Nodup := by
  rw [annual_group_keys]
  exact List.nodup_dedup _

/-- Emptiness of a list is decidable without deciding element equality. -/
instance decListEqNil {α : Type} (l : List α) : Decidable (l = []) :=
  match l with
  | [] => isTrue rfl
  | _ :: _ => isFalse (by simp)

/-- Decomposition of a group of the output of the synthesizer: the tagged original
group, followed by the fabricated clones when the group is annual. -/
lemma group_prepare (rows : List (WRow δ)) (reg : String) (yr : Int) :
    group_rows (prepare_series_rows rows) reg yr
      = (group_rows rows reg yr).map (tag_row rows)
        ++ (if n_quarters rows reg yr ≤ 1 ∧ group_rows rows reg yr ≠ []
            then group_clones (rows.map (tag_row rows)) reg yr else []) := by
  rw [prepare_series_rows, group_rows_append, group_rows_map_tag,
    group_rows_flatten_clones _ _ (annual_group_keys_nodup rows)]
  congr 1
  by_cases h : n_quarters rows reg yr ≤ 1 ∧ group_rows rows reg yr ≠ []
  · rw [if_pos ((mem_annual_group_keys rows reg yr).mpr h), if_pos h]
  · rw [if_neg (fun hm => h ((mem_annual_group_keys rows reg yr).mp hm)), if_neg h]

/-- Unfolding of the clone list of a non-empty annual group: one clone per
missing quarter, copied from the tagged first row. -/
lemma group_clones_of_annual (rows : List (WRow δ)) (reg : String) (yr : Int)
    (g : WRow δ) (gs : List (WRow δ)) (hG : group_rows rows reg yr = g :: gs) :
    group_clones (rows.map (tag_row rows)) reg yr
      = (missing_quarters ((g :: gs).map (tag_row rows))).map
          fun q => { tag_row rows g with trimestre := q, replicado := true } := by
  unfold group_clones
  rw [group_rows_map_tag, hG, List.map_cons]

/-- Tagging does not change the quarter column. -/
lemma quarters_map_tag (rows₀ : List (WRow δ)) (G : List (WRow δ)) :
    ((G.map (tag_row rows₀)).map fun r => r.trimestre) = G.map fun r => r.trimestre := by
  rw [List.map_map]
  exact List.map_congr_left fun r _ => rfl

/-- In a group with exactly one distinct quarter, the quarter of every row equals
the quarter of the first row. -/
lemma all_quarters_eq (rows : List (WRow δ)) (reg : String) (yr : Int)
    (g : WRow δ) (gs : List (WRow δ))
    (hG : group_rows rows reg yr = g :: gs) (hq : n_quarters rows reg yr = 1) :
    ∀ x ∈ (g :: gs).map fun r => r.trimestre, x = g.trimestre := by
  rw [n_quarters, hG] at hq
  obtain ⟨a, ha⟩ := List.length_eq_one.mp hq
  have hmem : ∀ x ∈ (g :: gs).map fun r => r.trimestre, x = a := by
    intro x hx
    have := List.mem_dedup.mpr hx
    rw [ha] at this
    simpa using this
  have hga : g.trimestre = a := hmem _ (by simp)
  intro x hx
  rw [hmem x hx, hga]

/-- In a group with exactly one distinct quarter, the missing quarters are
the standard quarters other than the observed one. -/
lemma missing_of_single (rows : List (WRow δ)) (reg : String) (yr : Int)
    (g : WRow δ) (gs : List (WRow δ))
    (hG : group_rows rows reg yr = g :: gs) (hq : n_quarters rows reg yr = 1) :
    missing_quarters ((g :: gs).map (tag_row rows))
      = [1, 2, 3, 4].filter fun q => decide (q ≠ g.trimestre) := by
  rw [missing_quarters]
  have hquarters := quarters_map_tag rows (g :: gs)
  apply List.filter_congr
  intro q _
  have hiff : (((g :: gs).map (tag_row rows)).map fun r => r.trimestre).contains q = true
      ↔ q = g.trimestre := by
    rw [List.elem_iff, hquarters]
    constructor
    · exact fun h => all_quarters_eq rows reg yr g gs hG hq q h
    · intro h
      rw [h]
      exact List.mem_map.mpr ⟨g, List.mem_cons_self g gs, rfl⟩
  cases hb : (((g :: gs).map (tag_row rows)).map fun r => r.trimestre).contains q with
  | true =>
    have hq0 : q = g.trimestre := hiff.mp hb
    simp [hq0]
  | false =>
    have hq0 : q ≠ g.trimestre := fun h => by
      exact absurd (hiff.mpr h) (by rw [hb]; exact Bool.false_ne_true)
    simp [hq0]

/-- Tagged original rows all carry a cleared `_replicado` flag. -/
lemma filter_replicado_map_tag (rows₀ : List (WRow δ)) (G : List (WRow δ)) :
    ((G.map (tag_row rows₀)).filter fun r => r.replicado) = [] := by
  rw [List.filter_eq_nil_iff]
  intro x hx
  obtain ⟨r, -, rfl⟩ := List.mem_map.mp hx
  simp [tag_row]

/-- C4 counterexample: a `(reg_ans, ano)` group with exactly one observed
quarter but two rows (duplicate keys are allowed at the source) ends up with
5 rows after synthesis, not 4 as the claim states. -/
theorem C4_single_quarter_group_counterexample :
    n_quarters
        [(⟨"A", 2024, 1, none, none, 0, false, ""⟩ : WRow ℤ),
         ⟨"A", 2024, 1, none, none, 1, false, ""⟩] "A" 2024 = 1
      ∧ (group_rows
          (prepare_series_rows
            [(⟨"A", 2024, 1, none, none, 0, false, ""⟩ : WRow ℤ),
             ⟨"A", 2024, 1, none, none, 1, false, ""⟩]) "A" 2024).length = 5
      ∧ (group_rows
          (prepare_series_rows
            [(⟨"A", 2024, 1, none, none, 0, false, ""⟩ : WRow ℤ),
             ⟨"A", 2024, 1, none, none, 1, false, ""⟩]) "A" 2024).length ≠ 4 := by
  refine ⟨by decide, by decide, by decide⟩

/-- C4 (amended): for a `(reg_ans, ano)` group with exactly one distinct
observed quarter (taken from the quarter domain {1, 2, 3, 4}), synthesis
appends one clone per missing quarter — each equal to the tagged
first row except for the quarter and the `_replicado` flag — so exactly 3
clones, which are exactly the replicated rows of the group; if moreover the group
consists of a single row, the resulting group has exactly 4 rows covering
each quarter once. -/
theorem C4_single_quarter_group_amended (δ : Type) (rows : List (WRow δ))
    (reg : String) (yr : Int) (g : WRow δ) (gs : List (WRow δ))
    (hG : group_rows rows reg yr = g :: gs)
    (hq : n_quarters rows reg yr = 1)
    (hq4 : g.trimestre = 1 ∨ g.trimestre = 2 ∨ g.trimestre = 3 ∨ g.trimestre = 4) :
    group_rows (prepare_series_rows rows) reg yr
        = (g :: gs).map (tag_row rows)
          ++ (missing_quarters ((g :: gs).map (tag_row rows))).map
              (fun q => { tag_row rows g with trimestre := q, replicado := true })
      ∧ (missing_quarters ((g :: gs).map (tag_row rows))).length = 3
      ∧ ((group_rows (prepare_series_rows rows) reg yr).filter
            fun r => r.replicado).length = 3
      ∧ (gs = [] →
          (group_rows (prepare_series_rows rows) reg yr).length = 4
            ∧ ((group_rows (prepare_series_rows rows) reg yr).map
                fun r => r.trimestre).Perm [1, 2, 3, 4]) := by
  have hcond : n_quarters rows reg yr ≤ 1 ∧ group_rows rows reg yr ≠ [] :=
    ⟨le_of_eq hq, by rw [hG]; exact List.cons_ne_nil g gs⟩
  have hdec : group_rows (prepare_series_rows rows) reg yr
      = (g :: gs).map (tag_row rows)
        ++ (missing_quarters ((g :: gs).map (tag_row rows))).map
            (fun q => { tag_row rows g with trimestre := q, replicado := true }) := by
    rw [group_prepare, if_pos hcond, hG, group_clones_of_annual rows reg yr g gs hG]
  have hmiss := missing_of_single rows reg yr g gs hG hq
  have hlen : (missing_quarters ((g :: gs).map (tag_row rows))).length = 3 := by
    rw [hmiss]
    rcases hq4 with h | h | h | h <;> rw [h] <;> decide
  refine ⟨hdec, hlen, ?_, ?_⟩
  · rw [hdec, List.filter_append, filter_replicado_map_tag, List.nil_append,
      List.filter_eq_self.mpr ?_, List.length_map, hlen]
    intro x hx
    obtain ⟨q, -, rfl⟩ := List.mem_map.mp hx
    rfl
  · intro hgs
    subst hgs
    constructor
    · rw [hdec, List.length_append, List.length_map, List.length_map, hlen]
      rfl
    · have hqmap : ((group_rows (prepare_series_rows rows) reg yr).map
          fun r => r.trimestre)
          = g.trimestre :: missing_quarters ([g].map (tag_row rows)) := by
        rw [hdec, List.map_append, List.map_map, List.map_map]
        exact congrArg _ (List.map_id _)
      rw [hqmap, hmiss]
      rcases hq4 with h | h | h | h <;> rw [h] <;> decide

/-- C4 amended witness: a single-row annual group observed in quarter 2. -/
theorem C4_single_quarter_group_amended_witness :
    n_quarters [(⟨"B", 2024, 2, none, none, 0, false, ""⟩ : WRow ℤ)] "B" 2024 = 1
      ∧ (group_rows
          (prepare_series_rows
            [(⟨"B", 2024, 2, none, none, 0, false, ""⟩ : WRow ℤ)]) "B" 2024).length = 4
      ∧ ((group_rows
          (prepare_series_rows
            [(⟨"B", 2024, 2, none, none, 0, false, ""⟩ : WRow ℤ)]) "B" 2024).map
            fun r => r.trimestre).Perm [1, 2, 3, 4] :=
  ⟨by decide,
   ((C4_single_quarter_group_amended ℤ
      [(⟨"B", 2024, 2, none, none, 0, false, ""⟩ : WRow ℤ)] "B" 2024
      ⟨"B", 2024, 2, none, none, 0, false, ""⟩ []
      (by decide) (by decide) (by decide)).2.2.2 rfl).1,
   ((C4_single_quarter_group_amended ℤ
      [(⟨"B", 2024, 2, none, none, 0, false, ""⟩ : WRow ℤ)] "B" 2024
      ⟨"B", 2024, 2, none, none, 0, false, ""⟩ []
      (by decide) (by decide) (by decide)).2.2.2 rfl).2⟩

/-- C7: a `(reg_ans, ano)` group with at least 2 distinct observed quarters is
left untouched by the synthesizer — its output rows are exactly its tagged
input rows (no clones appended), every one with `_replicado = false` and the
quarterly cadence label `"Trimestral"`. -/
theorem C7_quarterly_group_untouched (δ : Type) (rows : List (WRow δ))
    (reg : String) (yr : Int) (h2 : 2 ≤ n_quarters rows reg yr) :
    group_rows (prepare_series_rows rows) reg yr
        = (group_rows rows reg yr).map (tag_row rows)
      ∧ ∀ r ∈ group_rows (prepare_series_rows rows) reg yr,
          r.replicado = false ∧ r.periodicidade = "Trimestral" := by
  have hcond : ¬(n_quarters rows reg yr ≤ 1 ∧ group_rows rows reg yr ≠ []) := by
    intro h
    omega
  have hdec : group_rows (prepare_series_rows rows) reg yr
      = (group_rows rows reg yr).map (tag_row rows) := by
    rw [group_prepare, if_neg hcond, List.append_nil]
  refine ⟨hdec, ?_⟩
  intro r hr
  rw [hdec] at hr
  obtain ⟨r', hr', rfl⟩ := List.mem_map.mp hr
  obtain ⟨-, hreg, hano⟩ := (mem_group_rows rows reg yr r').mp hr'
  refine ⟨rfl, ?_⟩
  show (if n_quarters rows r'.reg_ans r'.ano ≤ 1 then "Anual" else "Trimestral") = _
  rw [hreg, hano, if_neg (by omega)]

/-- C7 witness: a two-quarter group is returned tagged and unmodified. -/
theorem C7_quarterly_group_untouched_witness :
    2 ≤ n_quarters
        [(⟨"A", 2024, 1, none, none, 0, false, ""⟩ : WRow ℤ),
         ⟨"A", 2024, 2, none, none, 0, false, ""⟩] "A" 2024
      ∧ group_rows
          (prepare_series_rows
            [(⟨"A", 2024, 1, none, none, 0, false, ""⟩ : WRow ℤ),
             ⟨"A", 2024, 2, none, none, 0, false, ""⟩]) "A" 2024
        = (group_rows
            [(⟨"A", 2024, 1, none, none, 0, false, ""⟩ : WRow ℤ),
             ⟨"A", 2024, 2, none, none, 0, false, ""⟩] "A" 2024).map
            (tag_row
              [(⟨"A", 2024, 1, none, none, 0, false, ""⟩ : WRow ℤ),
               ⟨"A", 2024, 2, none, none, 0, false, ""⟩]) :=
  ⟨by decide,
   (C7_quarterly_group_untouched ℤ
      [(⟨"A", 2024, 1, none, none, 0, false, ""⟩ : WRow ℤ),
       ⟨"A", 2024, 2, none, none, 0, false, ""⟩] "A" 2024 (by decide)).1⟩

/-- A list with two distinct members has at least two distinct values. -/
lemma two_mem_le_dedup_length {α : Type} [DecidableEq α] {l : List α} {a b : α}
    (ha : a ∈ l) (hb : b ∈ l) (hab : a ≠ b) : 2 ≤ l.dedup.length := by
  have ha' : a ∈ l.dedup := List.mem_dedup.mpr ha
  have hb' : b ∈ l.dedup := List.mem_dedup.mpr hb
  cases hd : l.dedup with
  | nil => rw [hd] at ha'; cases ha'
  | cons x t =>
    cases t with
    | nil =>
      rw [hd] at ha' hb'
      simp only [List.mem_singleton] at ha' hb'
      exact absurd (ha'.trans hb'.symm) hab
    | cons y t₂ =>
      rw [List.length_cons, List.length_cons]
      omega

/-- After one synthesizer pass, the `(reg_ans, ano)` group of every row shows at
least two distinct quarters: quarterly groups keep theirs, and annual groups
gain the missing standard quarters. -/
lemma prepare_no_annual (rows : List (WRow δ)) :
    ∀ r ∈ prepare_series_rows rows,
      2 ≤ n_quarters (prepare_series_rows rows) r.reg_ans r.ano := by
  intro r hr
  have hry : r ∈ group_rows (prepare_series_rows rows) r.reg_ans r.ano :=
    (mem_group_rows _ _ _ r).mpr ⟨hr, rfl, rfl⟩
  by_cases hc : n_quarters rows r.reg_ans r.ano ≤ 1
      ∧ group_rows rows r.reg_ans r.ano ≠ []
  · obtain ⟨hq1, hne⟩ := hc
    rcases hGr : group_rows rows r.reg_ans r.ano with _ | ⟨g, gs⟩
    · exact absurd hGr hne
    have hq : n_quarters rows r.reg_ans r.ano = 1 := by
      have hpos : 0 < n_quarters rows r.reg_ans r.ano := by
        rw [n_quarters, List.length_pos, hGr]
        intro hnil
        have : g.trimestre ∈ ((g :: gs).map fun r => r.trimestre).dedup :=
          List.mem_dedup.mpr (List.mem_map.mpr ⟨g, List.mem_cons_self g gs, rfl⟩)
        rw [hnil] at this
        cases this
      omega
    have hmiss := missing_of_single rows r.reg_ans r.ano g gs hGr hq
    have hqmap : ((group_rows (prepare_series_rows rows) r.reg_ans r.ano).map
        fun x => x.trimestre)
        = ((g :: gs).map fun x => x.trimestre)
          ++ missing_quarters ((g :: gs).map (tag_row rows)) := by
      rw [group_prepare, if_pos ⟨hq1, hne⟩, hGr,
        group_clones_of_annual rows r.reg_ans r.ano g gs hGr, List.map_append,
        quarters_map_tag, List.map_map]
      exact congrArg _ (List.map_id _)
    have hmne : missing_quarters ((g :: gs).map (tag_row rows)) ≠ [] := by
      rw [hmiss]
      intro hnil
      rw [List.filter_eq_nil_iff] at hnil
      have h1 := hnil 1 (by decide)
      have h2 := hnil 2 (by decide)
      simp only [decide_eq_true_eq, not_not] at h1 h2
      rw [← h1] at h2
      cases h2
    obtain ⟨m, hm⟩ := List.exists_mem_of_ne_nil _ hmne
    have hmneq : g.trimestre ≠ m := by
      intro h
      rw [hmiss] at hm
      have := (List.mem_filter.mp hm).2
      simp only [decide_eq_true_eq] at this
      exact this h.symm
    refine two_mem_le_dedup_length ?_ ?_ hmneq
    · rw [hqmap]
      exact List.mem_append.mpr (Or.inl (List.mem_map.mpr ⟨g, List.mem_cons_self g gs, rfl⟩))
    · rw [hqmap]
      exact List.mem_append.mpr (Or.inr hm)
  · have hdec : group_rows (prepare_series_rows rows) r.reg_ans r.ano
        = (group_rows rows r.reg_ans r.ano).map (tag_row rows) := by
      rw [group_prepare, if_neg hc, List.append_nil]
    have hGne : group_rows rows r.reg_ans r.ano ≠ [] := by
      intro h
      rw [hdec, h, List.map_nil] at hry
      cases hry
    have hq2 : ¬(n_quarters rows r.reg_ans r.ano ≤ 1) := fun h => hc ⟨h, hGne⟩
    have heq : n_quarters (prepare_series_rows rows) r.reg_ans r.ano
        = n_quarters rows r.reg_ans r.ano := by
      rw [n_quarters, n_quarters, hdec, quarters_map_tag]
    omega

/-- C10 counterexample: starting from a single annual row, the first pass
yields 4 rows of which 3 carry `_replicado = true`; a second pass produces a
different row set — line 592 resets the flag column, so all flags are cleared
and the annual cadence label is retagged — refuting idempotence on the set of
rows. -/
theorem C10_idempotence_counterexample :
    prepare_series_rows
        (prepare_series_rows [(⟨"A", 2024, 1, none, none, 0, false, ""⟩ : WRow ℤ)])
        ≠ prepare_series_rows [(⟨"A", 2024, 1, none, none, 0, false, ""⟩ : WRow ℤ)]
      ∧ ((prepare_series_rows [(⟨"A", 2024, 1, none, none, 0, false, ""⟩ : WRow ℤ)]).filter
          fun r => r.replicado).length = 3
      ∧ ((prepare_series_rows
          (prepare_series_rows [(⟨"A", 2024, 1, none, none, 0, false, ""⟩ : WRow ℤ)])).filter
          fun r => r.replicado).length = 0
      ∧ ((prepare_series_rows [(⟨"A", 2024, 1, none, none, 0, false, ""⟩ : WRow ℤ)]).filter
          fun r => r.periodicidade = "Anual").length = 4
      ∧ ((prepare_series_rows
          (prepare_series_rows [(⟨"A", 2024, 1, none, none, 0, false, ""⟩ : WRow ℤ)])).filter
          fun r => r.periodicidade = "Anual").length = 0 := by
  refine ⟨by decide, by decide, by decide, by decide, by decide⟩

/-- C10 (amended): a second application of the synthesizer adds no rows and
fabricates nothing — it returns the rows of the first pass unchanged except that
every `_replicado` flag is reset to `false` and every cadence label is
retagged `"Trimestral"` (after the first pass no group is annual any more).
In particular the synthesizer is idempotent on the underlying data rows but
not on the `_replicado`/cadence columns. -/
theorem C10_second_run_amended (δ : Type) (rows : List (WRow δ)) :
    prepare_series_rows (prepare_series_rows rows)
      = (prepare_series_rows rows).map
          fun r => { r with replicado := false, periodicidade := "Trimestral" } := by
  have hmain := prepare_no_annual rows
  have hfilter : ((prepare_series_rows rows).filter
      fun r => decide (n_quarters (prepare_series_rows rows) r.reg_ans r.ano ≤ 1)) = [] := by
    rw [List.filter_eq_nil_iff]
    intro r hr
    simp only [decide_eq_true_eq]
    have := hmain r hr
    omega
  have hkeys : annual_group_keys (prepare_series_rows rows) = [] := by
    rw [annual_group_keys, hfilter, List.map_nil, List.dedup_nil]
  rw [show prepare_series_rows (prepare_series_rows rows)
      = ((prepare_series_rows rows).map (tag_row (prepare_series_rows rows)))
        ++ ((annual_group_keys (prepare_series_rows rows)).map fun k =>
              group_clones ((prepare_series_rows rows).map
                (tag_row (prepare_series_rows rows))) k.1 k.2).flatten from rfl,
    hkeys, List.map_nil, List.flatten_nil, List.append_nil]
  apply List.map_congr_left
  intro r hr
  have := hmain r hr
  rw [tag_row, if_neg (by omega)]

end SynthesizerLemmas

/-!
## Ranking Engine

Embedding of `show_ranking_table` (src/app.py, lines 712-771).  A dataframe
is a list of typed rows plus the list of column names actually present;
selecting an absent column raises `KeyError` in pandas, modelled by the
`keyError` outcome.  `rank(ascending=False, method="min")` assigns
`1 + (number of strictly greater values)` and `rank(ascending=True,
method="min")` assigns `1 + (number of strictly smaller values)`; the final
`sort_values(["ranking_mll", "ranking_sinistralidade"])` sorts by exactly
that lexicographic key pair.
-/

/-- A row of the series dataframe as consumed by the ranking view, with the
columns the ranking reads. -/
structure RankInRow where
  reg_ans : String
  ano : Int
  trimestre : Int
  nome_fantasia : String
  modalidade : String
  porte : String
  sinistralidade : ℚ
  margem_lucro_liquida : ℚ
  liquidez_corrente : ℚ
deriving DecidableEq

/-- A ranking row: the input row plus the two rank columns (they are integer
after `.astype(int)`). -/
structure RankedRow extends RankInRow where
  ranking_mll : ℕ
  ranking_sinistralidade : ℕ
deriving DecidableEq

/-- A dataframe for the ranking view: the present column names and the typed
rows. -/
structure RankDF where
  cols : List String
  rows : List RankInRow
deriving DecidableEq

/-- The outcome of `show_ranking_table`: an informational empty-state message
(`st.info`), a rendered ranking table, or a raised `KeyError` naming the
missing columns. -/
inductive RankingOutcome where
  | info : String → RankingOutcome
  | table : List RankedRow → RankingOutcome
  | keyError : List String → RankingOutcome
deriving DecidableEq

/-- One step of the latest-period maximum: `sort_values` ascending on
`(ano, trimestre)` followed by `iloc[-1]` selects the lexicographic maximum. -/
def later_period (a b : Int × Int) : Int × Int :=
  if a.1 < b.1 ∨ (a.1 = b.1 ∧ a.2 < b.2) then b else a

/-- The latest `(ano, trimestre)` pair present
(`df.loc[:, ["ano", "trimestre"]].sort_values(...).drop_duplicates().iloc[-1]`). -/
def latest_period (pairs : List (Int × Int)) (init : Int × Int) : Int × Int :=
  pairs.foldl later_period init

/-- The rows of the latest period
(`df[(df["ano"] == latest["ano"]) & (df["trimestre"] == latest["trimestre"])]`). -/
def latest_rows_of (rows : List RankInRow) (r0 : RankInRow) : List RankInRow :=
  rows.filter fun r =>
    decide (r.ano = (latest_period (rows.map fun x => (x.ano, x.trimestre))
        (r0.ano, r0.trimestre)).1
      ∧ r.trimestre = (latest_period (rows.map fun x => (x.ano, x.trimestre))
        (r0.ano, r0.trimestre)).2)

/-- Rank computation of lines 734-735: minimum-method rank, descending-best on
`margem_lucro_liquida` and ascending-best on `sinistralidade`. -/
def decorate (rows : List RankInRow) (r : RankInRow) : RankedRow :=
  { toRankInRow := r,
    ranking_mll := 1 + ((rows.map fun x => x.margem_lucro_liquida).countP
        fun w => decide (r.margem_lucro_liquida < w)),
    ranking_sinistralidade := 1 + ((rows.map fun x => x.sinistralidade).countP
        fun w => decide (w < r.sinistralidade)) }

/-- The two-key lexicographic sort order of line 736: primary rank first, then
loss-ratio rank, and nothing else. -/
def rank_le (a b : RankedRow) : Prop :=
  a.ranking_mll < b.ranking_mll
    ∨ (a.ranking_mll = b.ranking_mll
        ∧ a.ranking_sinistralidade ≤ b.ranking_sinistralidade)

instance : DecidableRel rank_le := fun a b => by
  unfold rank_le
  infer_instance

instance : IsTotal RankedRow rank_le :=
  ⟨fun a b => by unfold rank_le; omega⟩

instance : IsTrans RankedRow rank_le :=
  ⟨fun a b c => by unfold rank_le; omega⟩

/-- Decorate every latest-period row with its two ranks, then sort by the
two-key order (`sort_values` over the rank columns). -/
def build_ranking (rows : List RankInRow) : List RankedRow :=
  List.insertionSort rank_le (rows.map (decorate rows))

/-- The columns selected into the ranking table (lines 722-733). -/
def ranking_source_cols : List String :=
  ["reg_ans", "periodo_label", "nome_fantasia", "modalidade", "porte",
   "sinistralidade", "margem_lucro_liquida", "liquidez_corrente"]

/-- The period normalizer adds these columns before the selection
(`append_period_columns(latest_df)`). -/
def append_period_cols (cols : List String) : List String :=
  cols ++ ["periodo", "periodo_label", "operadora_label"]

/-- `show_ranking_table` (src/app.py, lines 712-771): empty-state message for
an empty frame, `KeyError` when a required column is absent, otherwise the
ranked table of the latest period. -/
def show_ranking_table (df : RankDF) : RankingOutcome :=
  match df.rows with
  | [] => RankingOutcome.info "Sem dados para ranquear"
  | r0 :: _ =>
    if "ano" ∈ df.cols ∧ "trimestre" ∈ df.cols then
      if (latest_rows_of df.rows r0).isEmpty then
        RankingOutcome.info "Não foi possível montar o ranking para o período selecionado."
      else if ranking_source_cols.all fun c => (append_period_cols df.cols).contains c then
        RankingOutcome.table (build_ranking (latest_rows_of df.rows r0))
      else
        RankingOutcome.keyError (ranking_source_cols.filter
          fun c => !((append_period_cols df.cols).contains c))
    else
      RankingOutcome.keyError (["ano", "trimestre"].filter fun c => !(df.cols.contains c))

section RankingLemmas

/-- The running latest-period maximum keeps either operand. -/
lemma later_period_cases (a b : Int × Int) :
    later_period a b = a ∨ later_period a b = b := by
  unfold later_period
  split
  · right; rfl
  · left; rfl

/-- The latest-period maximum is the seed or one of the pairs. -/
lemma latest_period_mem (pairs : List (Int × Int)) (init : Int × Int) :
    latest_period pairs init = init ∨ latest_period pairs init ∈ pairs := by
  unfold latest_period
  induction pairs generalizing init with
  | nil => left; rfl
  | cons p t ih =>
    rw [List.foldl_cons]
    rcases ih (later_period init p) with h | h
    · rw [h]
      rcases later_period_cases init p with h2 | h2
      · left; exact h2
      · right; rw [h2]; exact List.mem_cons_self p t
    · right; exact List.mem_cons_of_mem p h

/-- A non-empty frame always has rows in its latest period. -/
lemma latest_rows_of_ne_nil (rows : List RankInRow) (r0 : RankInRow)
    (h0 : r0 ∈ rows) : latest_rows_of rows r0 ≠ [] := by
  have hmem : latest_period (rows.map fun x => (x.ano, x.trimestre))
      (r0.ano, r0.trimestre) ∈ rows.map fun x => (x.ano, x.trimestre) := by
    rcases latest_period_mem (rows.map fun x => (x.ano, x.trimestre))
        (r0.ano, r0.trimestre) with h | h
    · rw [h]
      exact List.mem_map.mpr ⟨r0, h0, rfl⟩
    · exact h
  obtain ⟨rr, hrr, hL⟩ := List.mem_map.mp hmem
  refine List.ne_nil_of_mem (l := latest_rows_of rows r0)
    (List.mem_filter.mpr ⟨hrr, ?_⟩)
  rw [← hL]
  simp

/-- The produced table is sorted by the two-key lexicographic order. -/
lemma build_ranking_sorted (rows : List RankInRow) :
    List.Sorted rank_le (build_ranking rows) :=
  List.sorted_insertionSort rank_le _

/-- Sorting permutes the decorated rows. -/
lemma build_ranking_perm (rows : List RankInRow) :
    (build_ranking rows).Perm (rows.map (decorate rows)) :=
  List.perm_insertionSort rank_le _

/-- Every table row is a decorated latest-period row. -/
lemma mem_build_ranking (rows : List RankInRow) (x : RankedRow)
    (hx : x ∈ build_ranking rows) : ∃ r ∈ rows, x = decorate rows r := by
  have hx' := (build_ranking_perm rows).mem_iff.mp hx
  obtain ⟨r, hr, hxr⟩ := List.mem_map.mp hx'
  exact ⟨r, hr, hxr.symm⟩

/-- The primary rank of every table row is one plus the number of table rows
with a strictly greater primary indicator (minimum-rank method, descending
best). -/
lemma build_ranking_rank_mll (rows : List RankInRow) (x : RankedRow)
    (hx : x ∈ build_ranking rows) :
    x.ranking_mll = 1 + (build_ranking rows).countP
        fun y => decide (x.margem_lucro_liquida < y.margem_lucro_liquida) := by
  obtain ⟨r, hr, rfl⟩ := mem_build_ranking rows x hx
  show 1 + _ = 1 + _
  congr 1
  rw [List.Perm.countP_eq _ (build_ranking_perm rows), List.countP_map,
    List.countP_map]
  rfl

/-- The loss-ratio rank of every table row is one plus the number of table
rows with a strictly smaller loss ratio (minimum-rank method, ascending). -/
lemma build_ranking_rank_sin (rows : List RankInRow) (x : RankedRow)
    (hx : x ∈ build_ranking rows) :
    x.ranking_sinistralidade = 1 + (build_ranking rows).countP
        fun y => decide (y.sinistralidade < x.sinistralidade) := by
  obtain ⟨r, hr, rfl⟩ := mem_build_ranking rows x hx
  show 1 + _ = 1 + _
  congr 1
  rw [List.Perm.countP_eq _ (build_ranking_perm rows), List.countP_map,
    List.countP_map]
  rfl

end RankingLemmas

/-- C2 counterexample: a non-empty frame that lacks the two required ranking
indicator columns (`sinistralidade`, `margem_lucro_liquida`) makes
`show_ranking_table` raise `KeyError` — it does not report a "ranking
unavailable" message. -/
theorem C2_ranking_missing_columns_counterexample :
    show_ranking_table
        ⟨["ano", "trimestre", "reg_ans", "nome_fantasia", "modalidade", "porte",
          "liquidez_corrente"],
         [⟨"A", 2024, 4, "A", "M", "P", 1, 1, 1⟩]⟩
      = RankingOutcome.keyError ["sinistralidade", "margem_lucro_liquida"] := by
  decide

/-- C2 (amended): an empty input frame yields the informational message
`"Sem dados para ranquear"` without raising, but a non-empty frame whose
required loss-ratio column is absent makes the ranking raise `KeyError`
naming the missing column instead of reporting a "ranking unavailable"
result. -/
theorem C2_ranking_missing_columns_amended (df : RankDF) :
    (df.rows = [] → show_ranking_table df = RankingOutcome.info "Sem dados para ranquear")
      ∧ (df.rows ≠ [] → "ano" ∈ df.cols → "trimestre" ∈ df.cols →
          "sinistralidade" ∉ df.cols →
          show_ranking_table df
              = RankingOutcome.keyError (ranking_source_cols.filter
                  fun c => !((append_period_cols df.cols).contains c))
            ∧ "sinistralidade" ∈ ranking_source_cols.filter
                fun c => !((append_period_cols df.cols).contains c)) := by
  obtain ⟨cols, rows⟩ := df
  constructor
  · intro h
    simp only at h
    subst h
    rfl
  · intro hne hano htri hsin
    simp only at hne hano htri hsin
    rcases hrows : rows with _ | ⟨r0, rest⟩
    · exact absurd hrows hne
    have hcontains : (append_period_cols cols).contains "sinistralidade" = false := by
      rw [Bool.eq_false_iff]
      intro h
      have := List.elem_iff.mp h
      rw [append_period_cols, List.mem_append] at this
      rcases this with h' | h'
      · exact hsin h'
      · simp at h'
    have hall : (ranking_source_cols.all
        fun c => (append_period_cols cols).contains c) = false := by
      rw [Bool.eq_false_iff]
      intro h
      have := List.all_eq_true.mp h "sinistralidade" (by decide)
      rw [hcontains] at this
      cases this
    have hnonempty : ¬((latest_rows_of (r0 :: rest) r0).isEmpty = true) := by
      rw [List.isEmpty_iff]
      exact latest_rows_of_ne_nil (r0 :: rest) r0 (List.mem_cons_self r0 rest)
    constructor
    · show show_ranking_table ⟨cols, r0 :: rest⟩ = _
      unfold show_ranking_table
      simp only
      rw [if_pos ⟨hano, htri⟩, if_neg hnonempty, if_neg (by rw [hall]; exact Bool.false_ne_true)]
    · exact List.mem_filter.mpr ⟨by decide, by rw [hcontains]; rfl⟩

/-- C2 amended witness: the empty frame, and a concrete non-empty frame
missing only the loss-ratio column. -/
theorem C2_ranking_missing_columns_amended_witness :
    show_ranking_table ⟨["ano", "trimestre"], []⟩
        = RankingOutcome.info "Sem dados para ranquear"
      ∧ show_ranking_table
          ⟨["ano", "trimestre", "reg_ans", "nome_fantasia", "modalidade", "porte",
            "margem_lucro_liquida", "liquidez_corrente"],
           [⟨"A", 2024, 4, "A", "M", "P", 1, 1, 1⟩]⟩
          = RankingOutcome.keyError ["sinistralidade"] :=
  ⟨(C2_ranking_missing_columns_amended ⟨["ano", "trimestre"], []⟩).1 rfl,
   by
    have h := (C2_ranking_missing_columns_amended
      ⟨["ano", "trimestre", "reg_ans", "nome_fantasia", "modalidade", "porte",
        "margem_lucro_liquida", "liquidez_corrente"],
       [⟨"A", 2024, 4, "A", "M", "P", 1, 1, 1⟩]⟩).2
      (by decide) (by decide) (by decide) (by decide)
    rw [h.1]
    decide⟩

/-- C6: whenever the ranking view renders a table, entities with equal primary
indicator value receive equal primary rank, computed by the minimum-rank
method (one plus the count of strictly better values), likewise for the
loss-ratio rank, and the output rows are sorted by exactly the two rank keys
— primary rank first, loss-ratio rank second — in ascending lexicographic
order. -/
theorem C6_ranking_tie_and_sort (df : RankDF) (out : List RankedRow)
    (h : show_ranking_table df = RankingOutcome.table out) :
    List.Sorted rank_le out
      ∧ (∀ x ∈ out, x.ranking_mll = 1 + out.countP
          fun y => decide (x.margem_lucro_liquida < y.margem_lucro_liquida))
      ∧ (∀ x ∈ out, x.ranking_sinistralidade = 1 + out.countP
          fun y => decide (y.sinistralidade < x.sinistralidade))
      ∧ (∀ x ∈ out, ∀ y ∈ out,
          x.margem_lucro_liquida = y.margem_lucro_liquida →
            x.ranking_mll = y.ranking_mll) := by
  obtain ⟨cols, rows⟩ := df
  have hout : ∃ lr : List RankInRow, out = build_ranking lr := by
    rcases hrows : rows with _ | ⟨r0, rest⟩ <;> rw [hrows] at h
    · exact absurd h (by simp [show_ranking_table])
    · unfold show_ranking_table at h
      simp only at h
      split_ifs at h with h1 h2 h3
      exact ⟨latest_rows_of (r0 :: rest) r0, (RankingOutcome.table.inj h).symm⟩
  obtain ⟨lr, rfl⟩ := hout
  refine ⟨build_ranking_sorted lr, build_ranking_rank_mll lr,
    build_ranking_rank_sin lr, ?_⟩
  intro x hx y hy hmll
  rw [build_ranking_rank_mll lr x hx, build_ranking_rank_mll lr y hy, hmll]

/-- C6 witness: primary values `[0.10, 0.10, 0.05]` (higher is better) in one
period yield primary ranks `[1, 1, 3]`, and the table is sorted by the two
rank keys. -/
theorem C6_ranking_tie_and_sort_witness :
    List.Sorted rank_le
        (build_ranking
          [⟨"A", 2024, 4, "A", "M", "P", mkRat 70 100, mkRat 1 10, 1⟩,
           ⟨"B", 2024, 4, "B", "M", "P", mkRat 80 100, mkRat 1 10, 1⟩,
           ⟨"C", 2024, 4, "C", "M", "P", mkRat 90 100, mkRat 5 100, 1⟩])
      ∧ ((build_ranking
          [⟨"A", 2024, 4, "A", "M", "P", mkRat 70 100, mkRat 1 10, 1⟩,
           ⟨"B", 2024, 4, "B", "M", "P", mkRat 80 100, mkRat 1 10, 1⟩,
           ⟨"C", 2024, 4, "C", "M", "P", mkRat 90 100, mkRat 5 100, 1⟩]).map
          fun r => r.ranking_mll) = [1, 1, 3] :=
  ⟨(C6_ranking_tie_and_sort
      ⟨["ano", "trimestre", "reg_ans", "nome_fantasia", "modalidade", "porte",
        "sinistralidade", "margem_lucro_liquida", "liquidez_corrente"],
       [⟨"A", 2024, 4, "A", "M", "P", mkRat 70 100, mkRat 1 10, 1⟩,
        ⟨"B", 2024, 4, "B", "M", "P", mkRat 80 100, mkRat 1 10, 1⟩,
        ⟨"C", 2024, 4, "C", "M", "P", mkRat 90 100, mkRat 5 100, 1⟩]⟩
      (build_ranking
        [⟨"A", 2024, 4, "A", "M", "P", mkRat 70 100, mkRat 1 10, 1⟩,
         ⟨"B", 2024, 4, "B", "M", "P", mkRat 80 100, mkRat 1 10, 1⟩,
         ⟨"C", 2024, 4, "C", "M", "P", mkRat 90 100, mkRat 5 100, 1⟩])
      rfl).1,
   by decide⟩

end DashboardContag
